import Mathlib

/-!
Verification of the job-processing subsystem of `src/app.py`: the cascading
response parser (`parse_audit_result`, `parse_tags`,
`extract_tags_from_content`, `parse_audit_result_push`), the per-item
retrying client (`process_comment`), the comment-row recording loop
(`process_comment_file`), the news aggregation (`aggregate_news_results`),
and the task-status record with its control and upload operations
(`update_task_status`, `control_task`, `upload_file`).

Strings are modelled as `List Char` internally (one entry per Unicode scalar,
matching Python's `str` indexing) with `String` wrappers at the interface.
Python's regular-expression searches are modelled by specialised scanners
implementing the exact leftmost-match / greedy / lazy semantics of the six
fixed patterns that appear in the source.
-/

/-- Whitespace test modelling Python's `\s` and `str.strip()` on the
whitespace characters that matter here (space, tab, newline, carriage
return, vertical tab, form feed). -/
def pySpace (c : Char) : Bool :=
  c == ' ' || c == '\t' || c == '\n' || c == '\r' || c == '\x0b' || c == '\x0c'

/-- Strip leading and trailing whitespace, as Python `str.strip()`. -/
def pyStrip (l : List Char) : List Char :=
  ((l.dropWhile pySpace).reverse.dropWhile pySpace).reverse

/-- Greedy `\s*`: drop the maximal whitespace run. -/
def dropSpaces (l : List Char) : List Char := l.dropWhile pySpace

/-- The character class `[:：]` used in every pattern of the source. -/
def isColon (c : Char) : Bool := c == ':' || c == '：'

/-- Length of the maximal whitespace run of `r` starting at offset `p`. -/
def wsRunFrom (r : List Char) (p : Nat) : Nat :=
  ((r.drop p).takeWhile pySpace).length

/-- Substring containment, modelling Python's `in` operator on `str`. -/
def containsSub (needle : List Char) : List Char → Bool
  | [] => needle.isEmpty
  | c :: rest => List.isPrefixOf needle (c :: rest) || containsSub needle rest

/-- Helper for `re.sub(r'<think>.*?</think>', ...)`: finds the leftmost
`</think>` and returns the suffix after it (the lazy `.*?` stops at the
first closing tag). -/
def dropThroughClose : List Char → Option (List Char)
  | [] => none
  | c :: rest =>
    if List.isPrefixOf "</think>".data (c :: rest) then some ((c :: rest).drop 8)
    else dropThroughClose rest

/-- Fueled scanner for `re.sub(r'<think>.*?</think>', '', s, flags=re.DOTALL)`:
each leftmost `<think>` with a later `</think>` is removed together with the
enclosed text; a `<think>` with no closing tag matches nothing and the rest
of the text is kept verbatim. The fuel is the input length, which bounds the
number of removals. -/
def stripThinkAux : Nat → List Char → List Char
  | 0, l => l
  | fuel + 1, l =>
    match l with
    | [] => []
    | c :: rest =>
      if List.isPrefixOf "<think>".data (c :: rest) then
        match dropThroughClose (rest.drop 6) with
        | some s2 => stripThinkAux fuel s2
        | none => c :: rest
      else c :: stripThinkAux fuel rest

/-- The think-block removal of step 1 of `parse_audit_result` (`src/app.py:1092-1093`). -/
def stripThink (l : List Char) : List Char := stripThinkAux l.length l

/-- Lazy capture `(.+?)(?=\n|$)` attempted at offset `p` of `r`: succeeds
when a character is present there and it is not a newline; the lazy group
then extends exactly to the end of the current line. -/
def tryCapture (r : List Char) (p : Nat) : Option (List Char) :=
  match r.drop p with
  | [] => none
  | c :: rest => if c == '\n' then none else some ((c :: rest).takeWhile (fun x => x != '\n'))

/-- Backtracking of a greedy `\s*` (which consumed a run of length `k`)
followed by the lazy end-of-line capture: offsets `p0 + k, ..., p0` are
tried in this order, as the regex engine prefers the longest whitespace
consumption and shortens it only on failure. -/
def tryWsDesc (r : List Char) (p0 : Nat) : Nat → Option (List Char)
  | 0 => tryCapture r p0
  | k + 1 =>
    match tryCapture r (p0 + (k + 1)) with
    | some g => some g
    | none => tryWsDesc r p0 k

/-- Tail `\s*[:：]\s*(\S+)` of patterns 1 and 2 for the verdict
(`src/app.py:1098,1102`). -/
def tailColonWord (r : List Char) : Option (List Char) :=
  match dropSpaces r with
  | [] => none
  | c :: rest =>
    if isColon c then
      let w := (dropSpaces rest).takeWhile (fun x => !pySpace x)
      if w.isEmpty then none else some w
    else none

/-- Tail `\s*[:：]\s*(.+?)(?=\n|$)` of patterns 1 and 2 for the tags
(`src/app.py:1099,1103`). -/
def tailColonLazy (r : List Char) : Option (List Char) :=
  match dropSpaces r with
  | [] => none
  | c :: rest => if isColon c then tryWsDesc rest 0 (wsRunFrom rest 0) else none

/-- Tail `\s*[:：]?\s*(正常|低质|违规)` of pattern 3 for the verdict
(`src/app.py:1106`). The alternatives begin with characters that are
neither whitespace nor colons, so the only viable start is after the
maximal whitespace run and the optional colon. -/
def tailOptColonLit (r : List Char) : Option (List Char) :=
  let r1 := dropSpaces r
  let r2 := match r1 with
    | c :: rest => if isColon c then dropSpaces rest else r1
    | [] => r1
  if List.isPrefixOf "正常".data r2 then some "正常".data
  else if List.isPrefixOf "低质".data r2 then some "低质".data
  else if List.isPrefixOf "违规".data r2 then some "违规".data
  else none

/-- Tail `\s*[:：]?\s*(.+?)(?=\n|$)` of pattern 3 for the tags
(`src/app.py:1107`). The engine first tries the branch that consumes the
maximal whitespace run and the colon (backtracking the following `\s*`
from longest to shortest), and on failure retries without the colon,
shortening the leading whitespace run one character at a time. -/
def tailOptColonLazy (r : List Char) : Option (List Char) :=
  let a := wsRunFrom r 0
  let colonBranch : Option (List Char) :=
    match r.drop a with
    | c :: rest => if isColon c then tryWsDesc rest 0 (wsRunFrom rest 0) else none
    | [] => none
  match colonBranch with
  | some g => some g
  | none => tryWsDesc r 0 a

/-- Match attempt of `（1）\s*审核结果\s*[:：]\s*(\S+)` at the head of `s`. -/
def att1Result (s : List Char) : Option (List Char) :=
  if List.isPrefixOf "（1）".data s then
    let s1 := dropSpaces (s.drop 3)
    if List.isPrefixOf "审核结果".data s1 then tailColonWord (s1.drop 4) else none
  else none

/-- Match attempt of `（2）\s*低质标签\s*[:：]\s*(.+?)(?=\n|$)` at the head of `s`. -/
def att1Tag (s : List Char) : Option (List Char) :=
  if List.isPrefixOf "（2）".data s then
    let s1 := dropSpaces (s.drop 3)
    if List.isPrefixOf "低质标签".data s1 then tailColonLazy (s1.drop 4) else none
  else none

/-- Match attempt of `审核结果\s*[:：]\s*(\S+)` at the head of `s`. -/
def att2Result (s : List Char) : Option (List Char) :=
  if List.isPrefixOf "审核结果".data s then tailColonWord (s.drop 4) else none

/-- Match attempt of `低质标签\s*[:：]\s*(.+?)(?=\n|$)` at the head of `s`. -/
def att2Tag (s : List Char) : Option (List Char) :=
  if List.isPrefixOf "低质标签".data s then tailColonLazy (s.drop 4) else none

/-- Match attempt of `(?:审核结果|结果)\s*[:：]?\s*(正常|低质|违规)` at the head
of `s`. The two label alternatives start with distinct characters, so at
most one applies at a given position. -/
def att3Result (s : List Char) : Option (List Char) :=
  if List.isPrefixOf "审核结果".data s then tailOptColonLit (s.drop 4)
  else if List.isPrefixOf "结果".data s then tailOptColonLit (s.drop 2)
  else none

/-- Match attempt of `(?:低质标签|标签|违规标签)\s*[:：]?\s*(.+?)(?=\n|$)` at the
head of `s`. The three label alternatives start with distinct characters. -/
def att3Tag (s : List Char) : Option (List Char) :=
  if List.isPrefixOf "低质标签".data s then tailOptColonLazy (s.drop 4)
  else if List.isPrefixOf "标签".data s then tailOptColonLazy (s.drop 2)
  else if List.isPrefixOf "违规标签".data s then tailOptColonLazy (s.drop 4)
  else none

/-- `re.search`: try the match attempt at offsets 0, 1, ... and return the
capture of the leftmost successful attempt. -/
def searchPat (att : List Char → Option (List Char)) : List Char → Option (List Char)
  | [] => att []
  | c :: rest =>
    match att (c :: rest) with
    | some g => some g
    | none => searchPat att rest

/-- Delimiter unification of `parse_tags` (`src/app.py:1166`): the full-width
comma, enumeration comma and both semicolons become a plain comma. -/
def normDelim (c : Char) : Char :=
  if c == '，' || c == '、' || c == '；' || c == ';' then ',' else c

/-- Python `str.split(',')`: splits into (possibly empty) comma-separated
segments. -/
def splitOnComma : List Char → List (List Char)
  | [] => [[]]
  | c :: rest =>
    if c == ',' then [] :: splitOnComma rest
    else
      match splitOnComma rest with
      | h :: t => (c :: h) :: t
      | [] => [[c]]

/-- `parse_tags` (`src/app.py:1160-1181`): reject sentinel-only strings,
unify delimiters, delete every slash, split on commas, trim each token and
drop empty or sentinel tokens. -/
def parse_tags (tag_str : List Char) : List (List Char) :=
  if tag_str = [] ∨ pyStrip tag_str = "/".data ∨ pyStrip tag_str = "无".data ∨
      pyStrip tag_str = "无标签".data ∨ pyStrip tag_str = [] then []
  else
    let s1 := pyStrip ((tag_str.map normDelim).filter (fun c => c != '/'))
    if s1 = [] then []
    else
      let tags := ((splitOnComma s1).map pyStrip).filter (fun t => !t.isEmpty)
      tags.filter (fun t =>
        !t.isEmpty && !(t == "/".data) && !(t == "无".data) && !(t == "无标签".data))

/-- The keyword-to-category taxonomy of `extract_tags_from_content`
(`src/app.py:1187-1195`), in the source's dictionary order. -/
def tag_keywords : List (List Char × List (List Char)) :=
  [("涉政".data, ["涉政".data, "政治".data, "政策".data]),
   ("违禁".data, ["违禁".data, "非法".data]),
   ("色情".data, ["色情".data, "性".data]),
   ("低俗".data, ["低俗".data, "低级".data]),
   ("广告".data, ["广告".data, "推广".data]),
   ("谩骂".data, ["谩骂".data, "辱骂".data, "歧视".data]),
   ("灌水".data, ["灌水".data, "无意义".data])]

/-- `extract_tags_from_content` (`src/app.py:1184-1206`): collect, in
taxonomy order, every category one of whose keywords occurs in the
lower-cased content. `Char.toLower` models Python's `str.lower()` (the
keywords are all CJK, which both leave unchanged). -/
def extract_tags_from_content (content : List Char) : List (List Char) :=
  let lowered := content.map Char.toLower
  (tag_keywords.filter (fun p => p.2.any (fun k => containsSub k lowered))).map
    (fun p => p.1)

/-- The think-stripped, trimmed message both parsers work on
(`src/app.py:1092-1093`). -/
def filteredMsg (s : String) : List Char := pyStrip (stripThink s.data)

/-- Step 2 of `parse_audit_result` for the verdict: the three result
patterns are tried in order and the first match wins
(`src/app.py:1110-1122`); the captured group is trimmed. -/
def verdictRaw (f : List Char) : Option (List Char) :=
  match searchPat att1Result f with
  | some g => some (pyStrip g)
  | none =>
    match searchPat att2Result f with
    | some g => some (pyStrip g)
    | none =>
      match searchPat att3Result f with
      | some g => some (pyStrip g)
      | none => none

/-- Step 2 of `parse_audit_result` for the tags: the three tag patterns are
tried in order, independently of the verdict patterns, and the first match
is fed through `parse_tags` (`src/app.py:1110-1129`). -/
def tagsRaw (f : List Char) : Option (List (List Char)) :=
  match searchPat att1Tag f with
  | some g => some (parse_tags (pyStrip g))
  | none =>
    match searchPat att2Tag f with
    | some g => some (parse_tags (pyStrip g))
    | none =>
      match searchPat att3Tag f with
      | some g => some (parse_tags (pyStrip g))
      | none => none

/-- Step 3 of `parse_audit_result` (`src/app.py:1131-1138`): keyword fallback
applied when no verdict pattern matched; with no matching keyword the
initial value 解析失败 survives. -/
def fallbackVerdict (f : List Char) : List Char :=
  if containsSub "正常".data f = true ∧ containsSub "违规".data f = false ∧
      containsSub "低质".data f = false then "正常".data
  else if containsSub "低质".data f = true ∨ containsSub "违规".data f = true then
    "低质".data
  else "解析失败".data

/-- Step 4 of `parse_audit_result` (`src/app.py:1140-1151`): 正常 forces an
empty tag list; a singleton sentinel tag list is cleared; a 低质 verdict
with no tags is enriched from the taxonomy. -/
def finalTags (result1 : List Char) (tags0 : List (List Char)) (f : List Char) :
    List (List Char) :=
  let tags1 := if result1 = "正常".data then [] else tags0
  let tags2 :=
    if tags1.length = 1 ∧ (tags1.headD [] = "/".data ∨ tags1.headD [] = "无".data ∨
        tags1.headD [] = "无标签".data ∨ tags1.headD [] = []) then []
    else tags1
  if result1 = "低质".data ∧ tags2 = [] then extract_tags_from_content f else tags2

/-- Core of `parse_audit_result` on the think-stripped message. -/
def par_core (f : List Char) : List Char × List (List Char) :=
  let result1 :=
    match verdictRaw f with
    | some r => r
    | none => fallbackVerdict f
  (result1, finalTags result1 ((tagsRaw f).getD []) f)

/-- `parse_audit_result` (`src/app.py:1085-1157`). The source wraps the body
in `try/except`, so it is total on its caller's side; the model is a total
function. -/
def parse_audit_result (s : String) : String × List String :=
  (String.mk (par_core (filteredMsg s)).1,
   (par_core (filteredMsg s)).2.map String.mk)

/-- Steps 4 and 5 of `parse_audit_result_push` (`src/app.py:1356-1367`):
the keyword fallback is keyed on the value 解析失败, and 正常 forces an empty
tag list. -/
def push_post (rt : List Char × List (List Char)) (f : List Char) :
    List Char × List (List Char) :=
  let result1 := if rt.1 = "解析失败".data then fallbackVerdict f else rt.1
  (result1, if result1 = "正常".data then [] else rt.2)

/-- Core of `parse_audit_result_push` (`src/app.py:1321-1370`): here a
pattern pair is used only when BOTH its verdict and its tag pattern match;
the fallback is keyed on the value 解析失败; 正常 forces empty tags; there is
no sentinel clearing and no taxonomy enrichment. -/
def push_core (f : List Char) : List Char × List (List Char) :=
  let m1 : Option (List Char × List (List Char)) :=
    match searchPat att1Result f, searchPat att1Tag f with
    | some r, some t => some (pyStrip r, parse_tags (pyStrip t))
    | _, _ => none
  let m2 : Option (List Char × List (List Char)) :=
    match searchPat att2Result f, searchPat att2Tag f with
    | some r, some t => some (pyStrip r, parse_tags (pyStrip t))
    | _, _ => none
  let m3 : Option (List Char × List (List Char)) :=
    match searchPat att3Result f, searchPat att3Tag f with
    | some r, some t => some (pyStrip r, parse_tags (pyStrip t))
    | _, _ => none
  push_post (((m1.orElse (fun _ => m2)).orElse (fun _ => m3)).getD ("解析失败".data, [])) f

/-- `parse_audit_result_push` (`src/app.py:1321-1370`); total for the same
reason as `parse_audit_result`. -/
def parse_audit_result_push (s : String) : String × List String :=
  (String.mk (push_core (filteredMsg s)).1,
   (push_core (filteredMsg s)).2.map String.mk)

/-- Outcome of one outbound HTTP attempt in `process_comment`
(`src/app.py:1010-1081`): either a response (status code, whether the body
mentions `conversation_id`, and the JSON `answer` field), or one of the
exception classes the handlers distinguish (`requests` timeout, other
request exception, any other exception). -/
inductive Attempt where
  | resp (status : Nat) (hasConvId : Bool) (answer : String)
  | timeoutE
  | reqErr
  | otherE
deriving DecidableEq

/-- One step of the `while retry_count < max_retries` loop of
`process_comment` (`src/app.py:1010-1083`), with `max_retries = 3`. The
environment `env` scripts the outcome of the `idx`-th attempt; the second
component of the value counts the attempts consumed. A non-200 status that
is 501 with `conversation_id` in the body retries without a bound check; a
4xx/5xx raises in `raise_for_status` and is caught, incrementing the retry
count and returning the failure sentinel once it reaches the bound; any
other status falls through to parsing the answer. The fuel only pads the
structural recursion and is never exhausted from `process_comment`, since
every iteration increments `rc`. -/
def runCommentFrom (env : Nat → Attempt) : Nat → Nat → Nat → (String × List String) × Nat
  | 0, idx, _ => (("处理失败", []), idx)
  | fuel + 1, idx, rc =>
    if rc < 3 then
      match env idx with
      | .resp status hasConvId answer =>
        if status = 200 then (parse_audit_result answer, idx + 1)
        else if status = 501 ∧ hasConvId = true then
          runCommentFrom env fuel (idx + 1) (rc + 1)
        else if 400 ≤ status ∧ status < 600 then
          if rc + 1 ≥ 3 then (("处理失败", []), idx + 1)
          else runCommentFrom env fuel (idx + 1) (rc + 1)
        else (parse_audit_result answer, idx + 1)
      | .timeoutE =>
        if rc + 1 ≥ 3 then (("处理失败", []), idx + 1)
        else runCommentFrom env fuel (idx + 1) (rc + 1)
      | .reqErr =>
        if rc + 1 ≥ 3 then (("处理失败", []), idx + 1)
        else runCommentFrom env fuel (idx + 1) (rc + 1)
      | .otherE =>
        if rc + 1 ≥ 3 then (("处理失败", []), idx + 1)
        else runCommentFrom env fuel (idx + 1) (rc + 1)
    else (("处理失败", []), idx)

/-- `process_comment` (`src/app.py:1002-1083`) against a scripted sequence
of attempt outcomes. Every exception raised inside the loop body is caught
by one of the three handlers, so the function always returns a value and
never propagates an exception to its caller; the model is accordingly a
total function. -/
def process_comment (env : Nat → Attempt) : (String × List String) × Nat :=
  runCommentFrom env 4 0 0

/-- The per-row recording step of the comment loop
(`src/app.py:833-842`): the result of `process_comment` is normalized — an
empty tag list, or the single sentinel tag `/`, forces the verdict 正常 —
and the pair written to the output table's 审核结果 and 违规标签 columns is
returned (tags joined by a comma, `/` when empty). -/
def record_comment_row (res : String × List String) : String × String :=
  let norm : String × List String :=
    if res.2.length = 0 ∨ (res.2.length = 1 ∧ res.2.headD "" = "/") then ("正常", [])
    else res
  (norm.1, if norm.2 = [] then "/" else String.intercalate ", " norm.2)

/-- The row loop of `process_comment_file` (`src/app.py:806-866`) restricted
to what it writes per row, one scripted attempt environment per row; pause
and cancel checks are elided (no external control events occur). Each row
yields exactly one recorded pair and the loop always advances to the next
row. -/
def process_comment_file_rows (envs : List (Nat → Attempt)) : List (String × String) :=
  envs.map (fun env => record_comment_row (process_comment env).1)

/-- The per-session task record of `task_status[audit_type][session_id]`
(`src/app.py:79-92`); the `id` field (a fresh UUID) is omitted, statistics
dictionaries are modelled as association lists in insertion order, and a
history entry is (time, message, status). -/
structure TaskRecord where
  status : String
  progress : Nat
  total : Nat
  processed : Nat
  paused : Bool
  message : String
  statsResults : List (String × Nat)
  statsTags : List (String × Nat)
  history : List (String × String × String)
deriving DecidableEq

/-- The freshly initialized record (`src/app.py:79-92` and the reset of the
`end` action, `src/app.py:613-626`). -/
def initial_record : TaskRecord :=
  { status := "idle", progress := 0, total := 0, processed := 0, paused := false,
    message := "", statsResults := [], statsTags := [], history := [] }

/-- `update_task_status` (`src/app.py:95-115`): each `some` argument
overwrites the corresponding field; a message additionally appends a history
entry whose status is the `status` argument when given, else the record's
current status. `now` stands for the wall-clock timestamp. -/
def update_task_status (r : TaskRecord) (status : Option String) (progress : Option Nat)
    (total : Option Nat) (processed : Option Nat) (paused : Option Bool)
    (message : Option String) (now : String) : TaskRecord :=
  let r1 := match status with | some s => { r with status := s } | none => r
  let r2 := match progress with | some p => { r1 with progress := p } | none => r1
  let r3 := match total with | some t => { r2 with total := t } | none => r2
  let r4 := match processed with | some p => { r3 with processed := p } | none => r3
  let r5 := match paused with | some p => { r4 with paused := p } | none => r4
  match message with
  | some m =>
    { r5 with message := m, history := r5.history ++ [(now, m, status.getD r5.status)] }
  | none => r5

/-- The four actions accepted by the `/control` route (`src/app.py:587`). -/
inductive ControlAction where
  | pause
  | resume
  | finish
  | endAction
deriving DecidableEq

/-- `control_task` (`src/app.py:574-632`) restricted to its effect on the
session's task record: `pause`/`resume` set the flag and log a message
regardless of the current status, `finish` sets status `done`, `end`
replaces the record by a fresh one. -/
def control_task (r : TaskRecord) (a : ControlAction) (now : String) : TaskRecord :=
  match a with
  | .pause =>
    update_task_status { r with paused := true } none none none none none
      (some "任务已暂停") now
  | .resume =>
    update_task_status { r with paused := false } none none none none none
      (some "任务已继续") now
  | .finish => update_task_status r (some "done") none none none none (some "任务已完成") now
  | .endAction => initial_record

/-- `upload_file` (`src/app.py:400-496`) restricted to its effect on an
existing session's task record: when the current status is `processing` or
`done` the upload is rejected with an error and the record is untouched
(`src/app.py:478-482`); otherwise the file is saved and the record is reset
to `idle` with progress 0 and a success message (`src/app.py:489`). -/
def upload_file (r : TaskRecord) (now : String) : TaskRecord :=
  if r.status = "processing" ∨ r.status = "done" then r
  else update_task_status r (some "idle") (some 0) none none none
    (some "文件上传成功，请点击开始巡检") now

/-- Base-2 logarithm on naturals by fueled halving (structural recursion so
that concrete instances reduce in the kernel). -/
def natLog2Fuel : Nat → Nat → Nat
  | 0, _ => 0
  | f + 1, n => if 2 ≤ n then natLog2Fuel f (n / 2) + 1 else 0

/-- `natLog2 n` is the greatest `k` with `2 ^ k ≤ n` (for `n ≥ 1`). -/
def natLog2 (n : Nat) : Nat := natLog2Fuel n n

/-- Round the rational `a / b` (with `b > 0`) to the nearest integer, ties
to even — the rounding mode of IEEE-754 binary64 arithmetic. -/
def rndNE (a b : Nat) : Nat :=
  let n := a / b
  let r := a % b
  if 2 * r < b then n
  else if b < 2 * r then n + 1
  else if n % 2 = 0 then n else n + 1

/-- Decides `2 ^ g ≤ a / b` over the rationals using only natural
arithmetic. -/
def pow2TestLE (a b : Nat) (g : Int) : Bool :=
  if 0 ≤ g then b * 2 ^ g.toNat ≤ a else b ≤ a * 2 ^ (-g).toNat

/-- The binary exponent of the positive rational `a / b`: the unique `e`
with `2 ^ e ≤ a / b < 2 ^ (e + 1)`. -/
def exp2 (a b : Nat) : Int :=
  let g : Int := (natLog2 a : Int) - (natLog2 b : Int)
  if pow2TestLE a b g then g else g - 1

/-- Correctly-rounded conversion of the nonnegative rational `a / b` to an
IEEE-754 binary64 value, returned as (mantissa, scale) with value
`m * 2 ^ ge`: the grid exponent is `e - 52` clamped below at `-1074` (the
subnormal grid), and the mantissa is the round-to-nearest-even integer of
`(a / b) / 2 ^ ge`. Overflow and NaN are not modelled — the magnitudes in
this file stay far below the binary64 range. -/
def flRat (a b : Nat) : Nat × Int :=
  let e := exp2 a b
  let ge : Int := max (e - 52) (-1074)
  let m := if 0 ≤ ge then rndNE a (b * 2 ^ ge.toNat) else rndNE (a * 2 ^ (-ge).toNat) b
  (m, ge)

/-- Numerator of the exact rational `(m * 2 ^ g) * 100` (the float
`v1 * 100` before rounding). -/
def mul100num (m : Nat) (g : Int) : Nat :=
  if 0 ≤ g then m * 100 * 2 ^ g.toNat else m * 100

/-- Denominator matching `mul100num`. -/
def mul100den (g : Int) : Nat :=
  if 0 ≤ g then 1 else 2 ^ (-g).toNat

/-- `int()` applied to the nonnegative float `m * 2 ^ g`: truncation toward
zero, which on nonnegative values is the floor. -/
def truncFloat (m : Nat) (g : Int) : Nat :=
  if 0 ≤ g then m * 2 ^ g.toNat else m / 2 ^ (-g).toNat

/-- The value Python computes for `int((p / t) * 100)` (`src/app.py:821` and
`src/app.py:932`) under IEEE-754 binary64: the division `p / t` is
correctly rounded, the product with the exactly-representable 100 is
correctly rounded again, and `int()` truncates. Validated against CPython
on an exhaustive and randomized corpus, including the divergent points such
as `pyFloatPct 29 100 = 28` (where the exact floor is 29). `t = 0` raises
`ZeroDivisionError` in Python and is unreachable in the loops (guarded by
`total > 0`); the model's value there is meaningless. -/
def pyFloatPct (p t : Nat) : Nat :=
  let f1 := flRat p t
  let f2 := flRat (mul100num f1.1 f1.2) (mul100den f1.2)
  truncFloat f2.1 f2.2

/-- The progress update performed for each row by the comment and cover
loops (`src/app.py:819-829` and `src/app.py:930-940`; the two loops are
textually identical here): `processed = index + 1` and
`progress = int(processed / total * 100)` computed in binary64 floating
point (`pyFloatPct`), stored through `update_task_status`; at logging
milestones a formatted message is stored as well. -/
def row_progress_update (r : TaskRecord) (index total : Nat) (logged : Bool)
    (now : String) : TaskRecord :=
  let processed := index + 1
  let progress := pyFloatPct processed total
  if logged then
    update_task_status r none (some progress) none (some processed) none
      (some (toString processed ++ "/" ++ toString total)) now
  else update_task_status r none (some progress) none (some processed) none none now

/-- `aggregate_news_results` (`src/app.py:2273-2293`): drop the bookkeeping
tag 小图片, pick the verdict by the 违规 / 处理失败 / all-absent cascade, filter
empty and sentinel tags, deduplicate, and default to `["/"]` when nothing
is left. Python's `list(set(...))` deduplicates in unspecified order; it is
modelled with `List.dedup`, and only order-independent properties are
proved about the result. -/
def aggregate_news_results (all_results all_tags : List String) : String × List String :=
  let filtered_tags := all_tags.filter (fun t => t != "小图片")
  let final_result :=
    if "违规" ∈ all_results then "违规"
    else if "处理失败" ∈ all_results then "处理失败"
    else if all_results.all (fun r => r == "无图片" || r == "文本提取失败") then "无内容"
    else "正常"
  let ftags := (filtered_tags.filter (fun t => !(t == "") && !(t == "/") && !(t == "无标签"))).dedup
  let final_tags := if ftags = [] then ["/"] else ftags
  (final_result, final_tags)

/-- Distance on naturals, used to state what rounding would require. -/
def distN (a b : Nat) : Nat := max a b - min a b

/-- `v` is a nearest integer to `p * 100 / t` (the claim's
`round(processed/total*100)`): its scaled distance to the exact percentage
is at most half a unit, `2 * |v*t - 100p| ≤ t`. -/
def isNearestPercent (v p t : Nat) : Prop := 2 * distN (v * t) (p * 100) ≤ t

/-- The claimed tag-goodness predicate for news aggregation: not the
bookkeeping tag, not empty, and not a "no tag" sentinel. -/
def goodNewsTag (t : String) : Prop := t ≠ "小图片" ∧ t ≠ "" ∧ t ≠ "/" ∧ t ≠ "无标签"

instance (v p t : Nat) : Decidable (isNearestPercent v p t) :=
  inferInstanceAs (Decidable (_ ≤ _))

instance (t : String) : Decidable (goodNewsTag t) :=
  inferInstanceAs (Decidable (_ ∧ _))

theorem finalTags_normal (t0 : List (List Char)) (f : List Char) :
    finalTags "正常".data t0 f = [] := by
  have h1 : ("正常".data : List Char) ≠ "低质".data := by decide
  simp [finalTags, h1]

theorem push_post_normal (rt : List Char × List (List Char)) (f : List Char)
    (h : (push_post rt f).1 = "正常".data) : (push_post rt f).2 = [] := by
  have h2 : (push_post rt f).2 =
      if (push_post rt f).1 = "正常".data then [] else rt.2 := rfl
  rw [h2, if_pos h]

/-- C1. `parse_audit_result` and `parse_audit_result_push` are total
functions of the input string (modelled directly by their Lean embeddings
being total), and whenever the returned verdict is 正常 the returned tag
list is empty: the normalization step of each parser clears the tags
unconditionally on a 正常 verdict. -/
theorem parse_normal_forces_empty_tags (s : String) :
    ((parse_audit_result s).1 = "正常" → (parse_audit_result s).2 = []) ∧
    ((parse_audit_result_push s).1 = "正常" → (parse_audit_result_push s).2 = []) := by
  constructor
  · intro h
    have h1 : (par_core (filteredMsg s)).1 = "正常".data := congrArg String.data h
    have h2 : (par_core (filteredMsg s)).2 =
        finalTags (par_core (filteredMsg s)).1 ((tagsRaw (filteredMsg s)).getD [])
          (filteredMsg s) := rfl
    show ((par_core (filteredMsg s)).2.map String.mk) = []
    rw [h2, h1, finalTags_normal]
    rfl
  · intro h
    have h1 : (push_core (filteredMsg s)).1 = "正常".data := congrArg String.data h
    show ((push_core (filteredMsg s)).2.map String.mk) = []
    rw [show (push_core (filteredMsg s)).2 = [] from push_post_normal _ _ h1]
    rfl

/-- Witness for C1 at a concrete input: the canonical well-formed 正常 reply
yields an empty tag list from both parsers. -/
theorem parse_normal_forces_empty_tags_witness :
    (parse_audit_result "（1）审核结果：正常 （2）低质标签：/").2 = [] ∧
    (parse_audit_result_push "（1）审核结果：正常 （2）低质标签：/").2 = [] :=
  ⟨(parse_normal_forces_empty_tags _).1 (by decide),
   (parse_normal_forces_empty_tags _).2 (by decide)⟩

/-- C9. On the spec's example reply, `parse_audit_result` returns the
low-quality verdict with the two tags in their original order, and the
returned list is duplicate-free. -/
theorem parse_audit_result_example_lowquality :
    parse_audit_result "审核结果：低质 低质标签：广告，谩骂" = ("低质", ["广告", "谩骂"]) ∧
    (["广告", "谩骂"] : List String).Nodup :=
  ⟨by decide, by decide⟩

theorem par_core_fst_of_none {f : List Char} (h : verdictRaw f = none) :
    (par_core f).1 = fallbackVerdict f := by
  unfold par_core
  rw [h]

/-- C4 (amended). When none of the three extraction strategies yields a
verdict, the keyword fallback decides it on the think-stripped message:
正常 present with neither 违规 nor 低质 gives 正常; 低质 or 违规 present gives
低质; no keyword at all leaves the terminal sentinel 解析失败. (The original
claim additionally asserted an empty tag list in the 解析失败 case; the tag
strategies run independently of the verdict strategies, so the tag list
need not be empty — see the counterexample.) -/
theorem keyword_fallback_verdicts (s : String)
    (hnone : verdictRaw (filteredMsg s) = none) :
    ((containsSub "正常".data (filteredMsg s) = true ∧
      containsSub "违规".data (filteredMsg s) = false ∧
      containsSub "低质".data (filteredMsg s) = false) →
        (parse_audit_result s).1 = "正常") ∧
    ((containsSub "低质".data (filteredMsg s) = true ∨
      containsSub "违规".data (filteredMsg s) = true) →
        (parse_audit_result s).1 = "低质") ∧
    ((containsSub "正常".data (filteredMsg s) = false ∧
      containsSub "低质".data (filteredMsg s) = false ∧
      containsSub "违规".data (filteredMsg s) = false) →
        (parse_audit_result s).1 = "解析失败") := by
  have hfst : (parse_audit_result s).1 = String.mk (fallbackVerdict (filteredMsg s)) :=
    congrArg String.mk (par_core_fst_of_none hnone)
  refine ⟨?_, ?_, ?_⟩
  · rintro ⟨h1, h2, h3⟩
    rw [hfst]
    unfold fallbackVerdict
    rw [if_pos ⟨h1, h2, h3⟩]
  · intro h
    rw [hfst]
    unfold fallbackVerdict
    rw [if_neg, if_pos h]
    rintro ⟨-, h2, h3⟩
    rcases h with h | h
    · rw [h] at h3; exact absurd h3 (by decide)
    · rw [h] at h2; exact absurd h2 (by decide)
  · rintro ⟨h1, h2, h3⟩
    rw [hfst]
    unfold fallbackVerdict
    rw [if_neg, if_neg]
    · rintro (h | h)
      · rw [h2] at h; exact Bool.false_ne_true h
      · rw [h3] at h; exact Bool.false_ne_true h
    · rintro ⟨h4, -, -⟩
      rw [h1] at h4; exact Bool.false_ne_true h4

/-- Witness for C4 at a concrete input with no patterns and no keywords. -/
theorem keyword_fallback_verdicts_witness :
    (parse_audit_result "asdf").1 = "解析失败" :=
  (keyword_fallback_verdicts "asdf" (by decide)).2.2 ⟨by decide, by decide, by decide⟩

/-- Counterexample to C4 as stated: on `标签：广告` no verdict strategy and no
keyword fires, so the verdict is 解析失败, yet the independently-running tag
strategy 3 extracts a tag — the tag list is not empty. -/
theorem parse_failed_tags_nonempty_cex :
    parse_audit_result "标签：广告" = ("解析失败", ["广告"]) ∧
    (["广告"] : List String) ≠ [] :=
  ⟨by decide, by decide⟩

theorem parse_tags_mem {u g : List Char} (h : u ∈ parse_tags g) :
    u ≠ [] ∧ u ≠ "/".data ∧ u ≠ "无".data ∧ u ≠ "无标签".data := by
  simp only [parse_tags] at h
  split_ifs at h with h1 h2
  · simp at h
  · simp at h
  · have hp := (List.mem_filter.mp h).2
    simp only [Bool.and_eq_true, Bool.not_eq_true', beq_eq_false_iff_ne, ne_eq] at hp
    obtain ⟨⟨⟨hne, h4⟩, h5⟩, h6⟩ := hp
    refine ⟨?_, h4, h5, h6⟩
    intro hnil
    rw [hnil] at hne
    simp at hne

theorem extract_tags_mem {u c : List Char} (h : u ∈ extract_tags_from_content c) :
    u ≠ [] ∧ u ≠ "/".data ∧ u ≠ "无".data ∧ u ≠ "无标签".data := by
  simp only [extract_tags_from_content] at h
  rcases List.mem_map.mp h with ⟨p, hp, rfl⟩
  have hmem : p ∈ tag_keywords := (List.mem_filter.mp hp).1
  fin_cases hmem <;> decide

theorem mem_finalTags {u r1 : List Char} {t0 : List (List Char)} {f : List Char}
    (h : u ∈ finalTags r1 t0 f) :
    u ∈ extract_tags_from_content f ∨ u ∈ t0 := by
  simp only [finalTags] at h
  split_ifs at h with h1 h2 h3 h4 h5 h6
  all_goals first
    | exact Or.inl h
    | (exact Or.inr h)
    | simp at h

theorem tagsRaw_some {f : List Char} {ts : List (List Char)}
    (h : tagsRaw f = some ts) : ∃ g, ts = parse_tags g := by
  unfold tagsRaw at h
  split at h
  · exact ⟨_, (Option.some.injEq _ _ ▸ h).symm⟩
  · split at h
    · exact ⟨_, (Option.some.injEq _ _ ▸ h).symm⟩
    · split at h
      · exact ⟨_, (Option.some.injEq _ _ ▸ h).symm⟩
      · cases h

/-- C8 (amended). Every tag returned by `parse_audit_result` is a nonempty
string that is none of the "no tag" sentinels `/`, 无, 无标签: `parse_tags`
filters these tokens out and the taxonomy fallback only produces fixed
category names. (The original claim asserted the list is duplicate-free;
`parse_tags` does not deduplicate — see the counterexample.) -/
theorem parse_audit_result_tags_not_sentinel (s t : String)
    (h : t ∈ (parse_audit_result s).2) :
    t ≠ "" ∧ t ≠ "/" ∧ t ≠ "无" ∧ t ≠ "无标签" := by
  have h' : t ∈ (par_core (filteredMsg s)).2.map String.mk := h
  rcases List.mem_map.mp h' with ⟨u, hu, rfl⟩
  have h2 : (par_core (filteredMsg s)).2 =
      finalTags (par_core (filteredMsg s)).1 ((tagsRaw (filteredMsg s)).getD [])
        (filteredMsg s) := rfl
  rw [h2] at hu
  have hgood : u ≠ [] ∧ u ≠ "/".data ∧ u ≠ "无".data ∧ u ≠ "无标签".data := by
    rcases mem_finalTags hu with h3 | h3
    · exact extract_tags_mem h3
    · rcases h4 : tagsRaw (filteredMsg s) with _ | ts
      · rw [h4] at h3; simp at h3
      · rw [h4] at h3
        simp only [Option.getD_some] at h3
        obtain ⟨g, rfl⟩ := tagsRaw_some h4
        exact parse_tags_mem h3
  exact ⟨fun he => hgood.1 (congrArg String.data he),
    fun he => hgood.2.1 (congrArg String.data he),
    fun he => hgood.2.2.1 (congrArg String.data he),
    fun he => hgood.2.2.2 (congrArg String.data he)⟩

/-- Witness for C8 at a concrete input whose reply carries one tag. -/
theorem parse_audit_result_tags_not_sentinel_witness :
    ("广告" : String) ≠ "" ∧ ("广告" : String) ≠ "/" ∧ ("广告" : String) ≠ "无" ∧
    ("广告" : String) ≠ "无标签" :=
  parse_audit_result_tags_not_sentinel "低质标签：广告" "广告" (by decide)

/-- Counterexample to C8 as stated: a reply repeating the same tag twice
yields a tag list with a duplicate, because `parse_tags` never
deduplicates. -/
theorem parse_audit_result_tags_duplicate_cex :
    parse_audit_result "低质标签：广告，广告" = ("低质", ["广告", "广告"]) ∧
    ¬ (["广告", "广告"] : List String).Nodup :=
  ⟨by decide, by decide⟩

/-- C3. When the endpoint answers 503 on every attempt, `process_comment`
performs exactly its bound of 3 attempts (the `raise_for_status` exception
is caught each time and the retry counter reaches `max_retries`) and then
returns the failure sentinel `('处理失败', [])` as an ordinary value; no
exception reaches the caller, since every handler returns. -/
theorem process_comment_503_exhausts_three_attempts (env : Nat → Attempt)
    (h : ∀ i, ∃ hc a, env i = Attempt.resp 503 hc a) :
    process_comment env = (("处理失败", []), 3) := by
  obtain ⟨b0, a0, h0⟩ := h 0
  obtain ⟨b1, a1, h1⟩ := h 1
  obtain ⟨b2, a2, h2⟩ := h 2
  show runCommentFrom env 4 0 0 = (("处理失败", []), 3)
  rw [show (4 : Nat) = 3 + 1 from rfl, runCommentFrom, h0]
  norm_num
  rw [show (3 : Nat) = 2 + 1 from rfl, runCommentFrom, h1]
  norm_num
  rw [show (2 : Nat) = 1 + 1 from rfl, runCommentFrom, h2]
  norm_num

/-- Witness for C3 with the constant all-503 environment. -/
theorem process_comment_503_witness :
    process_comment (fun _ => Attempt.resp 503 false "") = (("处理失败", []), 3) :=
  process_comment_503_exhausts_three_attempts _ (fun _ => ⟨false, "", rfl⟩)

/-- C2 (amended). A comment row whose per-item call exhausts its retries
(so `process_comment` returns the failure sentinel `('处理失败', [])`) is
recorded in the output table, but with verdict 正常 and tag cell `/`: the
empty-tag normalization at `src/app.py:836-838` rewrites the failure
sentinel, whose tag list is empty, into 正常. The loop still records one
output pair per row and continues with the next row. -/
theorem comment_failure_row_recorded_as_normal (envs : List (Nat → Attempt)) (i : Nat)
    (h : ∃ env, envs[i]? = some env ∧ (process_comment env).1 = ("处理失败", [])) :
    (process_comment_file_rows envs).length = envs.length ∧
    (process_comment_file_rows envs)[i]? = some ("正常", "/") := by
  obtain ⟨env, hget, hfail⟩ := h
  constructor
  · simp [process_comment_file_rows]
  · rw [process_comment_file_rows, List.getElem?_map, hget]
    simp only [Option.map_some']
    congr 1
    rw [record_comment_row, hfail]
    decide

/-- Witness for C2 on a one-row job whose only row meets nothing but 503. -/
theorem comment_failure_row_recorded_as_normal_witness :
    (process_comment_file_rows [fun _ => Attempt.resp 503 false ""]).length =
      ([fun _ => Attempt.resp 503 false ""] : List (Nat → Attempt)).length ∧
    (process_comment_file_rows [fun _ => Attempt.resp 503 false ""])[0]? =
      some ("正常", "/") :=
  comment_failure_row_recorded_as_normal _ 0 ⟨_, rfl, by decide⟩

/-- Counterexample to C2 as stated: a row whose call times out on all three
attempts is recorded with verdict 正常 — not with the terminal failure
verdict 处理失败 the claim asserts. -/
theorem comment_failure_row_not_failed_cex :
    record_comment_row (process_comment (fun _ => Attempt.timeoutE)).1 = ("正常", "/") ∧
    ("正常" : String) ≠ "处理失败" :=
  ⟨by decide, by decide⟩

/-- C6 (amended). A job whose status is `done` (or `processing`) is left
completely unchanged by the upload operation, which rejects the request
before touching the record. (The original claim extended this to every
control operation and to `error` status; `pause`/`resume`/`finish` mutate
done/error records and an upload on an `error` job resets it — see the
counterexample.) -/
theorem upload_preserves_done_or_processing (r : TaskRecord) (now : String)
    (h : r.status = "done" ∨ r.status = "processing") :
    upload_file r now = r := by
  unfold upload_file
  exact if_pos h.symm

/-- Witness for C6 on a concrete finished job. -/
theorem upload_preserves_done_or_processing_witness :
    upload_file { initial_record with status := "done" } "12:00:00" =
      { initial_record with status := "done" } :=
  upload_preserves_done_or_processing _ _ (Or.inl rfl)

/-- Counterexample to C6 as stated: the `pause` control action on a job in
`done` status changes the record (it sets the paused flag and appends a
message), so a done job is not immutable under control operations other
than `end`. -/
theorem pause_mutates_done_job_cex :
    control_task { initial_record with status := "done" } ControlAction.pause "12:00:00" ≠
      { initial_record with status := "done" } := by
  decide

theorem natLog2Fuel_spec : ∀ f n, 0 < n → n ≤ f →
    2 ^ natLog2Fuel f n ≤ n ∧ n < 2 ^ (natLog2Fuel f n + 1) := by
  intro f
  induction f with
  | zero => intro n h1 h2; omega
  | succ f ih =>
    intro n h1 h2
    rw [natLog2Fuel]
    split_ifs with h
    · have hrec := ih (n / 2) (by omega) (by omega)
      have ha := hrec.1
      have hb := hrec.2
      rw [pow_succ] at hb
      rw [pow_succ, pow_succ]
      omega
    · have hn : n = 1 := by omega
      subst hn
      norm_num

theorem natLog2_spec (n : Nat) (h : 0 < n) :
    2 ^ natLog2 n ≤ n ∧ n < 2 ^ (natLog2 n + 1) :=
  natLog2Fuel_spec n n h le_rfl

theorem rndNE_err (a b : Nat) (hb : 0 < b) :
    |((rndNE a b : Nat) : ℚ) - (a : ℚ) / b| ≤ 1 / 2 := by
  have hmod : b * (a / b) + a % b = a := Nat.div_add_mod a b
  have hrb : a % b < b := Nat.mod_lt _ hb
  have hbq : (0 : ℚ) < (b : ℚ) := by exact_mod_cast hb
  have hcast : (b : ℚ) * ((a / b : Nat) : ℚ) + ((a % b : Nat) : ℚ) = (a : ℚ) := by
    exact_mod_cast congrArg (fun x : ℕ => (x : ℚ)) hmod
  have hq : (a : ℚ) / b = ((a / b : Nat) : ℚ) + ((a % b : Nat) : ℚ) / b := by
    field_simp
    linarith [hcast]
  have hr0 : (0 : ℚ) ≤ ((a % b : Nat) : ℚ) / b :=
    div_nonneg (by positivity) (le_of_lt hbq)
  have hr1 : ((a % b : Nat) : ℚ) / b < 1 :=
    (div_lt_one hbq).mpr (by exact_mod_cast hrb)
  rw [rndNE]
  split_ifs with h1 h2 h3
  · have hn1 : ((a % b : Nat) : ℚ) * 2 < b := by
      exact_mod_cast (by omega : (a % b) * 2 < b)
    have hhalf : ((a % b : Nat) : ℚ) / b < 1 / 2 := by
      rw [div_lt_div_iff₀ hbq (by norm_num : (0 : ℚ) < 2)]
      linarith
    rw [hq, abs_le]
    constructor <;> linarith
  · have hn2 : (b : ℚ) < ((a % b : Nat) : ℚ) * 2 := by
      exact_mod_cast (by omega : b < (a % b) * 2)
    have hhalf : 1 / 2 < ((a % b : Nat) : ℚ) / b := by
      rw [div_lt_div_iff₀ (by norm_num : (0 : ℚ) < 2) hbq]
      linarith
    rw [hq]
    push_cast
    rw [abs_le]
    constructor <;> linarith
  · have hEq : 2 * (a % b) = b := by omega
    have hx : (0 : ℚ) < ((a % b : Nat) : ℚ) := by
      have : 0 < a % b := by omega
      exact_mod_cast this
    have hbEq : (b : ℚ) = 2 * ((a % b : Nat) : ℚ) := by exact_mod_cast hEq.symm
    have hhalf : ((a % b : Nat) : ℚ) / b = 1 / 2 := by
      rw [hbEq, div_eq_div_iff (by positivity) (by norm_num : (2 : ℚ) ≠ 0)]
      ring
    rw [hq, abs_le]
    constructor <;> linarith
  · have hEq : 2 * (a % b) = b := by omega
    have hx : (0 : ℚ) < ((a % b : Nat) : ℚ) := by
      have : 0 < a % b := by omega
      exact_mod_cast this
    have hbEq : (b : ℚ) = 2 * ((a % b : Nat) : ℚ) := by exact_mod_cast hEq.symm
    have hhalf : ((a % b : Nat) : ℚ) / b = 1 / 2 := by
      rw [hbEq, div_eq_div_iff (by positivity) (by norm_num : (2 : ℚ) ≠ 0)]
      ring
    rw [hq]
    push_cast
    rw [abs_le]
    constructor <;> linarith

theorem zpow_toNat_cast (g : Int) (hg : 0 ≤ g) :
    ((2 ^ g.toNat : Nat) : ℚ) = (2 : ℚ) ^ g := by
  push_cast
  rw [← zpow_natCast (2 : ℚ) g.toNat, Int.toNat_of_nonneg hg]

theorem pow2TestLE_iff (a b : Nat) (hb : 0 < b) (g : Int) :
    pow2TestLE a b g = true ↔ (2 : ℚ) ^ g ≤ (a : ℚ) / b := by
  have hbq : (0 : ℚ) < (b : ℚ) := by exact_mod_cast hb
  rw [pow2TestLE]
  split_ifs with hg
  · rw [decide_eq_true_eq]
    constructor
    · intro h
      rw [le_div_iff₀ hbq]
      have hc : ((b * 2 ^ g.toNat : ℕ) : ℚ) ≤ (a : ℚ) := by exact_mod_cast h
      push_cast at hc
      rw [← zpow_natCast (2 : ℚ) g.toNat, Int.toNat_of_nonneg hg] at hc
      linarith
    · intro h
      rw [le_div_iff₀ hbq] at h
      rw [← Int.toNat_of_nonneg hg, zpow_natCast] at h
      have hc : ((b * 2 ^ g.toNat : ℕ) : ℚ) ≤ (a : ℚ) := by push_cast; linarith
      exact_mod_cast hc
  · push_neg at hg
    have hg2 : (0 : Int) ≤ -g := by omega
    rw [decide_eq_true_eq]
    have hkey : (2 : ℚ) ^ g * (2 : ℚ) ^ ((-g).toNat : ℕ) = 1 := by
      rw [← zpow_natCast (2 : ℚ) (-g).toNat, Int.toNat_of_nonneg hg2,
        ← zpow_add₀ (by norm_num : (2 : ℚ) ≠ 0)]
      norm_num
    have hgpos : (0 : ℚ) < (2 : ℚ) ^ g := by positivity
    have hkpos : (0 : ℚ) < (2 : ℚ) ^ ((-g).toNat : ℕ) := by positivity
    constructor
    · intro h
      rw [le_div_iff₀ hbq]
      have hc : ((b : ℕ) : ℚ) ≤ ((a * 2 ^ (-g).toNat : ℕ) : ℚ) := by exact_mod_cast h
      push_cast at hc
      have h3 := mul_le_mul_of_nonneg_left hc (le_of_lt hgpos)
      calc (2 : ℚ) ^ g * (b : ℚ) ≤ 2 ^ g * ((a : ℚ) * 2 ^ ((-g).toNat : ℕ)) := h3
        _ = (a : ℚ) * (2 ^ g * 2 ^ ((-g).toNat : ℕ)) := by ring
        _ = (a : ℚ) := by rw [hkey, mul_one]
    · intro h
      rw [le_div_iff₀ hbq] at h
      have h3 := mul_le_mul_of_nonneg_right h (le_of_lt hkpos)
      have h4 : ((b : ℕ) : ℚ) ≤ (a : ℚ) * 2 ^ ((-g).toNat : ℕ) := by
        calc ((b : ℕ) : ℚ) = (2 ^ g * 2 ^ ((-g).toNat : ℕ)) * b := by rw [hkey, one_mul]
          _ = (2 ^ g * (b : ℚ)) * 2 ^ ((-g).toNat : ℕ) := by ring
          _ ≤ (a : ℚ) * 2 ^ ((-g).toNat : ℕ) := h3
      exact_mod_cast h4

theorem exp2_spec (a b : Nat) (ha : 0 < a) (hb : 0 < b) :
    (2 : ℚ) ^ exp2 a b ≤ (a : ℚ) / b ∧ (a : ℚ) / b < 2 ^ (exp2 a b + 1) := by
  obtain ⟨ha1, ha2⟩ := natLog2_spec a ha
  obtain ⟨hb1, hb2⟩ := natLog2_spec b hb
  have hbq : (0 : ℚ) < (b : ℚ) := by exact_mod_cast hb
  have haq : (0 : ℚ) < (a : ℚ) := by exact_mod_cast ha
  set la := natLog2 a with hla
  set lb := natLog2 b with hlb
  set g : Int := (la : Int) - (lb : Int) with hg
  have hcast1 : ((2 ^ la : Nat) : ℚ) ≤ (a : ℚ) := by exact_mod_cast ha1
  have hcast2 : (a : ℚ) < ((2 ^ (la + 1) : Nat) : ℚ) := by exact_mod_cast ha2
  have hcast3 : ((2 ^ lb : Nat) : ℚ) ≤ (b : ℚ) := by exact_mod_cast hb1
  have hcast4 : (b : ℚ) < ((2 ^ (lb + 1) : Nat) : ℚ) := by exact_mod_cast hb2
  have hpow1 : ((2 ^ la : Nat) : ℚ) = (2 : ℚ) ^ (la : Int) := by
    push_cast
    rw [zpow_natCast]
  have hpow2 : ((2 ^ (la + 1) : Nat) : ℚ) = (2 : ℚ) ^ ((la : Int) + 1) := by
    rw [show ((la : Int) + 1) = ((la + 1 : ℕ) : Int) by push_cast; ring, zpow_natCast]
    push_cast
    ring
  have hpow3 : ((2 ^ lb : Nat) : ℚ) = (2 : ℚ) ^ (lb : Int) := by
    push_cast
    rw [zpow_natCast]
  have hpow4 : ((2 ^ (lb + 1) : Nat) : ℚ) = (2 : ℚ) ^ ((lb : Int) + 1) := by
    rw [show ((lb : Int) + 1) = ((lb + 1 : ℕ) : Int) by push_cast; ring, zpow_natCast]
    push_cast
    ring
  have hlow : (2 : ℚ) ^ (g - 1) < (a : ℚ) / b := by
    have h1 : (2 : ℚ) ^ (g - 1) = (2 : ℚ) ^ (la : Int) / (2 : ℚ) ^ ((lb : Int) + 1) := by
      rw [← zpow_sub₀ (by norm_num : (2 : ℚ) ≠ 0)]
      congr 1
      omega
    rw [h1]
    have hnum : (2 : ℚ) ^ (la : Int) ≤ (a : ℚ) := by rw [← hpow1]; exact hcast1
    have hden : (b : ℚ) < (2 : ℚ) ^ ((lb : Int) + 1) := by rw [← hpow4]; exact hcast4
    have hdpos : (0 : ℚ) < (2 : ℚ) ^ ((lb : Int) + 1) := by positivity
    rw [div_lt_div_iff₀ hdpos hbq]
    have hppos : (0 : ℚ) < (2 : ℚ) ^ (la : Int) := by positivity
    nlinarith
  have hhigh : (a : ℚ) / b < (2 : ℚ) ^ (g + 1) := by
    have h1 : (2 : ℚ) ^ (g + 1) = (2 : ℚ) ^ ((la : Int) + 1) / (2 : ℚ) ^ (lb : Int) := by
      rw [← zpow_sub₀ (by norm_num : (2 : ℚ) ≠ 0)]
      congr 1
      omega
    rw [h1]
    have hnum : (a : ℚ) < (2 : ℚ) ^ ((la : Int) + 1) := by rw [← hpow2]; exact hcast2
    have hden : (2 : ℚ) ^ (lb : Int) ≤ (b : ℚ) := by rw [← hpow3]; exact hcast3
    have hdpos : (0 : ℚ) < (2 : ℚ) ^ (lb : Int) := by positivity
    rw [div_lt_div_iff₀ hbq hdpos]
    nlinarith
  rw [exp2]
  split_ifs with hc
  · exact ⟨(pow2TestLE_iff a b hb g).mp hc, hhigh⟩
  · have h2 : ¬ ((2 : ℚ) ^ g ≤ (a : ℚ) / b) := fun hle => hc ((pow2TestLE_iff a b hb g).mpr hle)
    push_neg at h2
    refine ⟨le_of_lt hlow, ?_⟩
    rw [show g - 1 + 1 = g by omega]
    exact h2

theorem scale_err (q m : ℚ) (k e : Int) (hq : (2 : ℚ) ^ e ≤ q)
    (herr : |m - q * 2 ^ (-k)| ≤ 1 / 2) (hke : k = e - 52) :
    |m * 2 ^ k - q| ≤ q * 2 ^ (-(53 : ℤ)) := by
  have h2k : (0 : ℚ) < 2 ^ k := by positivity
  have hexp : m * 2 ^ k - q = (m - q * 2 ^ (-k)) * 2 ^ k := by
    rw [sub_mul, mul_assoc, ← zpow_add₀ (by norm_num : (2 : ℚ) ≠ 0)]
    norm_num
  rw [hexp, abs_mul, abs_of_pos h2k]
  have hstep2 : |m - q * 2 ^ (-k)| * 2 ^ k ≤ 1 / 2 * 2 ^ k :=
    mul_le_mul_of_nonneg_right herr (le_of_lt h2k)
  have hstep3 : (1 : ℚ) / 2 * 2 ^ k = 2 ^ e * 2 ^ (-(53 : ℤ)) := by
    subst hke
    rw [← zpow_add₀ (by norm_num : (2 : ℚ) ≠ 0)]
    rw [show (1 : ℚ) / 2 = 2 ^ (-(1 : ℤ)) by norm_num]
    rw [← zpow_add₀ (by norm_num : (2 : ℚ) ≠ 0)]
    congr 1
    omega
  have hstep4 : (2 : ℚ) ^ e * 2 ^ (-(53 : ℤ)) ≤ q * 2 ^ (-(53 : ℤ)) :=
    mul_le_mul_of_nonneg_right hq (by positivity)
  rw [hstep3] at hstep2
  exact le_trans hstep2 hstep4

theorem flRat_val_err (a b : Nat) (ha : 0 < a) (hb : 0 < b)
    (hlow : (2 : ℚ) ^ (-(1022 : ℤ)) ≤ (a : ℚ) / b) :
    |((flRat a b).1 : ℚ) * 2 ^ (flRat a b).2 - (a : ℚ) / b| ≤
      (a : ℚ) / b * 2 ^ (-(53 : ℤ)) := by
  obtain ⟨hs1, hs2⟩ := exp2_spec a b ha hb
  have hbq : (0 : ℚ) < (b : ℚ) := by exact_mod_cast hb
  set e := exp2 a b with he
  have hge' : (-1022 : Int) ≤ e := by
    by_contra hlt
    push_neg at hlt
    have h2 : (2 : ℚ) ^ (e + 1) ≤ 2 ^ (-(1022 : ℤ)) := by
      apply zpow_le_zpow_right₀ (by norm_num : (1 : ℚ) ≤ 2)
      omega
    exact absurd (lt_of_lt_of_le hs2 h2) (not_lt.mpr hlow)
  have hmax : max (e - 52) (-1074 : Int) = e - 52 := by omega
  have hpair : flRat a b =
      ((if 0 ≤ max (e - 52) (-1074 : Int) then
          rndNE a (b * 2 ^ (max (e - 52) (-1074 : Int)).toNat)
        else rndNE (a * 2 ^ (-(max (e - 52) (-1074 : Int))).toNat) b),
       max (e - 52) (-1074 : Int)) := rfl
  rw [hpair, hmax]
  set k := e - 52 with hk
  split_ifs with hkge
  · have hbk : 0 < b * 2 ^ k.toNat := by positivity
    have herr := rndNE_err a (b * 2 ^ k.toNat) hbk
    have h2k : (2 : ℚ) ^ k = 2 ^ (k.toNat : ℕ) := by
      rw [← zpow_natCast (2 : ℚ) k.toNat, Int.toNat_of_nonneg hkge]
    have hfrac : (a : ℚ) / ((b * 2 ^ k.toNat : Nat) : ℚ) = (a : ℚ) / b * 2 ^ (-k) := by
      push_cast
      rw [zpow_neg, h2k]
      have hc : ((2 : ℚ) ^ (k.toNat : ℕ)) ≠ 0 := by positivity
      field_simp
    rw [hfrac] at herr
    exact scale_err ((a : ℚ) / b) _ k e hs1 herr hk
  · push_neg at hkge
    have hj : (0 : Int) ≤ -k := by omega
    have herr := rndNE_err (a * 2 ^ (-k).toNat) b hb
    have h2k : (2 : ℚ) ^ (-k) = 2 ^ ((-k).toNat : ℕ) := by
      rw [← zpow_natCast (2 : ℚ) (-k).toNat, Int.toNat_of_nonneg hj]
    have hfrac : ((a * 2 ^ (-k).toNat : Nat) : ℚ) / b = (a : ℚ) / b * 2 ^ (-k) := by
      push_cast
      rw [h2k]
      ring
    rw [hfrac] at herr
    exact scale_err ((a : ℚ) / b) _ k e hs1 herr hk

theorem mul100_val (m : Nat) (g : Int) :
    ((mul100num m g : Nat) : ℚ) / ((mul100den g : Nat) : ℚ) = (m : ℚ) * 2 ^ g * 100 := by
  rw [mul100num, mul100den]
  split_ifs with hg
  · push_cast
    rw [← zpow_natCast (2 : ℚ) g.toNat, Int.toNat_of_nonneg hg, div_one]
    ring
  · have hj : (0 : Int) ≤ -g := by omega
    have h2k : (2 : ℚ) ^ ((-g).toNat : ℕ) = 2 ^ (-g) := by
      rw [← zpow_natCast (2 : ℚ) (-g).toNat, Int.toNat_of_nonneg hj]
    push_cast
    rw [h2k, zpow_neg]
    have hc : (2 : ℚ) ^ g ≠ 0 := by positivity
    field_simp
    ring

theorem mul100den_pos (g : Int) : 0 < mul100den g := by
  rw [mul100den]
  split_ifs <;> positivity

theorem truncFloat_val (m : Nat) (g : Int) :
    truncFloat m g = ⌊(m : ℚ) * 2 ^ g⌋₊ := by
  rw [truncFloat]
  split_ifs with hg
  · have h1 : (m : ℚ) * 2 ^ g = ((m * 2 ^ g.toNat : Nat) : ℚ) := by
      push_cast
      rw [← zpow_natCast (2 : ℚ) g.toNat, Int.toNat_of_nonneg hg]
    rw [h1, Nat.floor_natCast]
  · have hj : (0 : Int) ≤ -g := by omega
    have h1 : (m : ℚ) * 2 ^ g = ((m : ℕ) : ℚ) / ((2 ^ (-g).toNat : ℕ) : ℚ) := by
      push_cast
      rw [← zpow_natCast (2 : ℚ) (-g).toNat, Int.toNat_of_nonneg hj]
      rw [div_eq_mul_inv, ← zpow_neg, neg_neg]
    rw [h1, Nat.floor_div_nat, Nat.floor_natCast]

set_option maxRecDepth 8000 in
set_option maxHeartbeats 1600000 in
theorem pyFloatPct_bounds (p t : Nat) (hp : 0 < p) (ht : 0 < t) (hpt : p ≤ t)
    (htb : t ≤ 2 ^ 512) :
    p * 100 / t ≤ pyFloatPct p t + 1 ∧ pyFloatPct p t ≤ p * 100 / t + 1 := by
  have htq : (0 : ℚ) < (t : ℚ) := by exact_mod_cast ht
  have hpq : (1 : ℚ) ≤ (p : ℚ) := by exact_mod_cast hp
  have hq0 : (0 : ℚ) < (p : ℚ) / t := div_pos (by linarith) htq
  have hq1 : (p : ℚ) / t ≤ 1 := (div_le_one htq).mpr (by exact_mod_cast hpt)
  have hu : (2 : ℚ) ^ (-(53 : ℤ)) = 1 / 9007199254740992 := by
    norm_num [zpow_neg]
  have hqlow : (2 : ℚ) ^ (-(1022 : ℤ)) ≤ (p : ℚ) / t := by
    have h1 : (1 : ℚ) / 2 ^ 512 ≤ 1 / (t : ℚ) :=
      one_div_le_one_div_of_le htq (by exact_mod_cast htb)
    have h2 : (1 : ℚ) / (t : ℚ) ≤ (p : ℚ) / t := by gcongr
    have h3 : (2 : ℚ) ^ (-(1022 : ℤ)) ≤ 1 / 2 ^ 512 := by
      norm_num [zpow_neg]
    linarith only [h1, h2, h3]
  have e1 := flRat_val_err p t hp ht hqlow
  rw [hu] at e1
  set m1 := (flRat p t).1 with hm1
  set g1 := (flRat p t).2 with hg1
  have hval2 := mul100_val m1 g1
  set m2 := (flRat (mul100num m1 g1) (mul100den g1)).1 with hm2
  set g2 := (flRat (mul100num m1 g1) (mul100den g1)).2 with hg2
  have hstored : pyFloatPct p t = ⌊(m2 : ℚ) * 2 ^ g2⌋₊ := by
    have hdef : pyFloatPct p t = truncFloat m2 g2 := rfl
    rw [hdef, truncFloat_val]
  have e2pre : ∀ hA2 : 0 < mul100num m1 g1, ∀ hB2 : 0 < mul100den g1,
      (2 : ℚ) ^ (-(1022 : ℤ)) ≤ ((mul100num m1 g1 : ℕ) : ℚ) / ((mul100den g1 : ℕ) : ℚ) →
      |(m2 : ℚ) * 2 ^ g2 - ((mul100num m1 g1 : ℕ) : ℚ) / ((mul100den g1 : ℕ) : ℚ)| ≤
        ((mul100num m1 g1 : ℕ) : ℚ) / ((mul100den g1 : ℕ) : ℚ) * 2 ^ (-(53 : ℤ)) :=
    fun hA2 hB2 hlow2 => flRat_val_err (mul100num m1 g1) (mul100den g1) hA2 hB2 hlow2
  have hnn2 : (0 : ℚ) ≤ (m2 : ℚ) * 2 ^ g2 := by positivity
  clear_value m1 g1 m2 g2
  set V1 : ℚ := (m1 : ℚ) * 2 ^ g1 with hV1
  set V2 : ℚ := (m2 : ℚ) * 2 ^ g2 with hV2
  have habs1 := abs_le.mp e1
  have hv1low : (p : ℚ) / t * (1 - 1 / 9007199254740992) ≤ V1 := by
    linarith only [habs1.1]
  have hv1high : V1 ≤ (p : ℚ) / t * (1 + 1 / 9007199254740992) := by
    linarith only [habs1.2]
  have hv1pos : 0 < V1 := by
    linarith only [hv1low, hq0]
  have hm1pos : 0 < m1 := by
    rcases Nat.eq_zero_or_pos m1 with h0 | h
    · rw [hV1, h0] at hv1pos
      simp at hv1pos
    · exact h
  have hA2 : 0 < mul100num m1 g1 := by
    rw [mul100num]
    split_ifs <;> positivity
  have hB2 : 0 < mul100den g1 := mul100den_pos g1
  have hq100 : (p : ℚ) / t ≤ V1 * 100 := by
    linarith only [hv1low, hq0]
  have hlow2 : (2 : ℚ) ^ (-(1022 : ℤ)) ≤
      ((mul100num m1 g1 : ℕ) : ℚ) / ((mul100den g1 : ℕ) : ℚ) := by
    rw [hval2]
    exact le_trans hqlow hq100
  have e2 := e2pre hA2 hB2 hlow2
  rw [hu, hval2] at e2
  have habs2 := abs_le.mp e2
  have hcomb1 : V2 ≤ (p : ℚ) / t * 100 + 1 / 2 := by
    linarith only [habs2.2, hv1high, hq1, hq0]
  have hcomb2 : (p : ℚ) / t * 100 - 1 / 2 ≤ V2 := by
    linarith only [habs2.1, hv1low, hv1high, hq1, hq0]
  set N := p * 100 / t with hN
  have hNle : (N : ℚ) ≤ (p : ℚ) / t * 100 := by
    have h1 : N * t ≤ p * 100 := Nat.div_mul_le_self _ _
    have h1q : ((N * t : ℕ) : ℚ) ≤ ((p * 100 : ℕ) : ℚ) := by exact_mod_cast h1
    push_cast at h1q
    rw [div_mul_eq_mul_div, le_div_iff₀ htq]
    linarith only [h1q]
  have hNgt : (p : ℚ) / t * 100 < (N : ℚ) + 1 := by
    have h1 : p * 100 < (N + 1) * t := (Nat.div_lt_iff_lt_mul ht).mp (Nat.lt_succ_self N)
    have h1q : ((p * 100 : ℕ) : ℚ) < (((N + 1) * t : ℕ) : ℚ) := by exact_mod_cast h1
    push_cast at h1q
    rw [div_mul_eq_mul_div, div_lt_iff₀ htq]
    linarith only [h1q]
  constructor
  · rcases Nat.eq_zero_or_pos N with h0 | hNpos
    · omega
    · have hc : ((N - 1 : ℕ) : ℚ) = (N : ℚ) - 1 := by
        push_cast [Nat.cast_sub (by omega : 1 ≤ N)]
        ring
      have hfl : ((N - 1 : ℕ) : ℚ) ≤ V2 := by
        rw [hc]
        linarith only [hcomb2, hNle]
      have hle := Nat.le_floor hfl
      rw [hstored]
      omega
  · have hlt : V2 < ((N + 2 : ℕ) : ℚ) := by
      push_cast
      linarith only [hcomb1, hNgt]
    have hfl := (Nat.floor_lt hnn2).mpr hlt
    rw [hstored]
    omega

/-- C7 (amended). At every row update of the job record with `0 < total`,
in-range row (`index + 1 ≤ total`) and any realistic dataset size
(`total ≤ 2 ^ 512`), the stored processed count is `index + 1` and the
stored progress — `int((processed / total) * 100)` computed in binary64 —
lies within one unit of the exact truncated percentage
`processed * 100 / total`: the two float roundings followed by `int()`
truncation can land one below it (e.g. 28 at 29/100), and never drift
further than one in either direction. In particular the stored value is
truncated, not rounded to nearest — see the counterexample. -/
theorem row_progress_update_near_floor (r : TaskRecord) (index total : Nat)
    (logged : Bool) (now : String) (ht : 0 < total) (hpt : index + 1 ≤ total)
    (htb : total ≤ 2 ^ 512) :
    (row_progress_update r index total logged now).processed = index + 1 ∧
    (index + 1) * 100 / total ≤ (row_progress_update r index total logged now).progress + 1 ∧
    (row_progress_update r index total logged now).progress ≤ (index + 1) * 100 / total + 1 := by
  have hpr : (row_progress_update r index total logged now).progress =
      pyFloatPct (index + 1) total := by
    cases logged <;> simp [row_progress_update, update_task_status]
  have hpd : (row_progress_update r index total logged now).processed = index + 1 := by
    cases logged <;> simp [row_progress_update, update_task_status]
  have hb := pyFloatPct_bounds (index + 1) total (Nat.succ_pos index) ht hpt htb
  exact ⟨hpd, by rw [hpr]; exact hb.1, by rw [hpr]; exact hb.2⟩

set_option maxRecDepth 8000 in
/-- Witness for C7, instantiated exactly at the float-divergent point
`processed = 29, total = 100`, where the program stores 28 while the exact
truncated percentage is 29 — the one-unit slack of the theorem is attained. -/
theorem row_progress_update_near_floor_witness :
    (row_progress_update initial_record 28 100 false "t").processed = 28 + 1 ∧
    (28 + 1) * 100 / 100 ≤ (row_progress_update initial_record 28 100 false "t").progress + 1 ∧
    (row_progress_update initial_record 28 100 false "t").progress ≤ (28 + 1) * 100 / 100 + 1 :=
  row_progress_update_near_floor initial_record 28 100 false "t" (by decide) (by decide)
    (by decide)

/-- The binary64 model reproduces the float effect the exact-floor model
would miss: at 29/100 the program stores 28 although the exact floor of the
percentage is 29. -/
theorem pyFloatPct_dips_below_exact_floor : pyFloatPct 29 100 = 28 ∧ 29 * 100 / 100 = 29 :=
  ⟨by decide, by decide⟩

/-- Counterexample to C7 as stated: at the second of three rows the exact
percentage is 200/3 = 66.67; the code stores `int(...) = 66`, which is not
a nearest integer to the percentage (the claimed `round` gives 67). -/
theorem progress_truncates_cex :
    (row_progress_update initial_record 1 3 false "t").processed = 2 ∧
    (row_progress_update initial_record 1 3 false "t").progress = 66 ∧
    ¬ isNearestPercent (row_progress_update initial_record 1 3 false "t").progress 2 3 :=
  ⟨by decide, by decide, by decide⟩

/-- C5. `aggregate_news_results` returns 违规 if any sub-result is 违规, else
处理失败 if any sub-result is 处理失败, else 无内容 when every sub-result is
无图片 or 文本提取失败, else 正常; and its tag list is duplicate-free and
consists exactly of the sub-tags that are neither the bookkeeping tag 小图片
nor empty nor a sentinel (`/`, 无标签), defaulting to `["/"]` when no such
tag exists. -/
theorem aggregate_news_results_spec (rs ts : List String) :
    (("违规" ∈ rs → (aggregate_news_results rs ts).1 = "违规") ∧
     ("违规" ∉ rs → "处理失败" ∈ rs → (aggregate_news_results rs ts).1 = "处理失败") ∧
     ("违规" ∉ rs → "处理失败" ∉ rs → (∀ x ∈ rs, x = "无图片" ∨ x = "文本提取失败") →
       (aggregate_news_results rs ts).1 = "无内容") ∧
     ("违规" ∉ rs → "处理失败" ∉ rs → ¬ (∀ x ∈ rs, x = "无图片" ∨ x = "文本提取失败") →
       (aggregate_news_results rs ts).1 = "正常")) ∧
    ((aggregate_news_results rs ts).2.Nodup ∧
     ((∃ t ∈ ts, goodNewsTag t) →
       ∀ t, t ∈ (aggregate_news_results rs ts).2 ↔ t ∈ ts ∧ goodNewsTag t) ∧
     ((¬ ∃ t ∈ ts, goodNewsTag t) → (aggregate_news_results rs ts).2 = ["/"])) := by
  have hfst : (aggregate_news_results rs ts).1 =
      (if "违规" ∈ rs then "违规"
       else if "处理失败" ∈ rs then "处理失败"
       else if rs.all (fun r => r == "无图片" || r == "文本提取失败") then "无内容"
       else "正常") := rfl
  have hsnd : (aggregate_news_results rs ts).2 =
      (if ((ts.filter (fun t => t != "小图片")).filter
            (fun t => !(t == "") && !(t == "/") && !(t == "无标签"))).dedup = [] then ["/"]
       else ((ts.filter (fun t => t != "小图片")).filter
            (fun t => !(t == "") && !(t == "/") && !(t == "无标签"))).dedup) := rfl
  set L := ((ts.filter (fun t => t != "小图片")).filter
      (fun t => !(t == "") && !(t == "/") && !(t == "无标签"))).dedup with hL
  have hmem : ∀ t, t ∈ L ↔ t ∈ ts ∧ goodNewsTag t := by
    intro t
    simp only [hL, List.mem_dedup, List.mem_filter, goodNewsTag, Bool.and_eq_true,
      Bool.not_eq_true', beq_eq_false_iff_ne, bne_iff_ne, ne_eq]
    tauto
  refine ⟨⟨?_, ?_, ?_, ?_⟩, ?_, ?_, ?_⟩
  · intro h
    rw [hfst, if_pos h]
  · intro h1 h2
    rw [hfst, if_neg h1, if_pos h2]
  · intro h1 h2 h3
    have hall : rs.all (fun r => r == "无图片" || r == "文本提取失败") = true := by
      rw [List.all_eq_true]
      intro x hx
      rcases h3 x hx with rfl | rfl <;> simp
    rw [hfst, if_neg h1, if_neg h2, if_pos hall]
  · intro h1 h2 h3
    have hnall : ¬ rs.all (fun r => r == "无图片" || r == "文本提取失败") = true := by
      intro hall
      apply h3
      intro x hx
      have := List.all_eq_true.mp hall x hx
      simpa using this
    rw [hfst, if_neg h1, if_neg h2, if_neg hnall]
  · rw [hsnd]
    split_ifs with hnil
    · simp
    · exact List.nodup_dedup _
  · rintro ⟨w, hw, hgw⟩ t
    have hwL : w ∈ L := (hmem w).mpr ⟨hw, hgw⟩
    have hne : ¬ L = [] := by
      intro hnil
      rw [hnil] at hwL
      simp at hwL
    rw [hsnd, if_neg hne]
    exact hmem t
  · intro hno
    have hnil : L = [] := by
      rw [List.eq_nil_iff_forall_not_mem]
      intro t ht
      exact hno ⟨t, ((hmem t).mp ht).1, ((hmem t).mp ht).2⟩
    rw [hsnd, if_pos hnil]

/-- Witness for C5 on a concrete multi-stage outcome with one violating
sub-result. -/
theorem aggregate_news_results_spec_witness :
    (aggregate_news_results ["正常", "违规"] ["色情", "小图片"]).1 = "违规" :=
  (aggregate_news_results_spec _ _).1.1 (by decide)
